import Mathlib

/-!
Shallow embedding of the Cook_Book_API recipe service
(src/main.py, src/app/models.py, src/schemas.py).

The relational store is modelled as lists of rows together with the
autoincrement counters of the two primary keys.  Each request handler of
src/main.py becomes a function from the store to a result paired with the
store after the request; a raised HTTPException becomes an error value.
The FastAPI response_model serialization on the route decorators is not
modelled; the operations return the handler's return value, which is the
data-access result the specification describes.
-/

namespace CookBook

/-- Row of the recipes table (src/app/models.py, class Recipe). -/
structure Recipe where
  id : Nat
  name : String
  views : Int
  cooking_time : Int
  description : String
  deriving DecidableEq

/-- Row of the ingredients table (src/app/models.py, class Ingredient). -/
structure Ingredient where
  id : Nat
  name : String
  cooking_time : Int
  description : String
  list_of_ingredients : String
  recipe_id : Nat
  deriving DecidableEq

/-- Database state: the two tables plus the autoincrement counters of the
primary keys (intpk in src/app/models.py). -/
structure Store where
  recipes : List Recipe
  ingredients : List Ingredient
  nextRecipeId : Nat
  nextIngredientId : Nat
  deriving DecidableEq

/-- Pydantic schema RecipeCreate (src/schemas.py): the request body of
POST /recipes.  It has no views field and no id field. -/
structure RecipeCreate where
  name : String
  cooking_time : Int
  description : String
  deriving DecidableEq

/-- Pydantic schema IngredientCreate (src/schemas.py): the request body of
POST /ingredients.  It has no cooking_time and no description field. -/
structure IngredientCreate where
  name : String
  list_of_ingredients : String
  recipe_id : Nat
  deriving DecidableEq

/-- Pydantic schema RecipeDelete (src/schemas.py): the response body of the
delete endpoint. -/
structure RecipeDelete where
  message : String
  deriving DecidableEq

/-- fastapi.HTTPException as raised in src/main.py. -/
structure HTTPError where
  status_code : Nat
  detail : String
  deriving DecidableEq

/-- select(Recipe).filter_by(id=rid) followed by .scalars().first():
the first recipe row whose primary key equals rid. -/
def firstRecipeWithId (db : Store) (rid : Nat) : Option Recipe :=
  (db.recipes.filter (fun r => r.id == rid)).head?

/-- The sort key of GET /recipes (src/main.py line 39):
ORDER BY views DESC, cooking_time ASC, as a boolean total preorder. -/
def recipeOrder (r1 r2 : Recipe) : Bool :=
  decide (r2.views < r1.views) ||
    (r1.views == r2.views && decide (r1.cooking_time ≤ r2.cooking_time))

/-- GET /recipes handler (src/main.py, recipes): all recipes ordered by
views descending then cooking_time ascending.  A read does not change the
store. -/
def recipes (db : Store) : List Recipe × Store :=
  (db.recipes.mergeSort recipeOrder, db)

/-- GET /recipes/recipe_id handler (src/main.py, recipe): the recipe with
the given primary key, or a 404 error. -/
def recipe (recipe_id : Nat) (db : Store) : Except HTTPError Recipe × Store :=
  match firstRecipeWithId db recipe_id with
  | none => (.error ⟨404, "Recipe not found"⟩, db)
  | some r => (.ok r, db)

/-- POST /recipes handler (src/main.py, create_recipe).  The inserted row
gets the autoincremented primary key and the column default views = 0
(src/app/models.py line 26); after commit and refresh the handler returns
the fully populated row. -/
def create_recipe (req : RecipeCreate) (db : Store) : Recipe × Store :=
  let db_recipe : Recipe :=
    { id := db.nextRecipeId, name := req.name, views := 0,
      cooking_time := req.cooking_time, description := req.description }
  (db_recipe,
   { db with recipes := db.recipes ++ [db_recipe],
             nextRecipeId := db.nextRecipeId + 1 })

/-- POST /ingredients handler (src/main.py, create_ingredient).  It first
looks the parent recipe up by ingredient.recipe_id; if absent it raises 404
and writes nothing.  Otherwise the inserted row copies cooking_time and
description from the located recipe, and takes name, list_of_ingredients
and recipe_id from the request. -/
def create_ingredient (ingredient : IngredientCreate) (db : Store) :
    Except HTTPError Ingredient × Store :=
  match firstRecipeWithId db ingredient.recipe_id with
  | none => (.error ⟨404, "Recipe not found"⟩, db)
  | some parent =>
    let db_ingredient : Ingredient :=
      { id := db.nextIngredientId, name := ingredient.name,
        cooking_time := parent.cooking_time, description := parent.description,
        list_of_ingredients := ingredient.list_of_ingredients,
        recipe_id := ingredient.recipe_id }
    (.ok db_ingredient,
     { db with ingredients := db.ingredients ++ [db_ingredient],
               nextIngredientId := db.nextIngredientId + 1 })

/-- DELETE /delete_recipe handler (src/main.py, delete_recipe).  It looks
the recipe up by id; if absent it raises 404.  Otherwise the raw statement
delete(Recipe).where(Recipe.id == recipe_id) removes the recipe row, and
the foreign key ingredients.recipe_id, declared with ondelete CASCADE
(src/app/models.py line 68) and enforced by the relational store, removes
every ingredient row whose recipe_id equals the deleted id. -/
def delete_recipe (recipe_id : Nat) (db : Store) :
    Except HTTPError RecipeDelete × Store :=
  match firstRecipeWithId db recipe_id with
  | none => (.error ⟨404, "Recipe not found"⟩, db)
  | some _ =>
    (.ok ⟨"Recipe with id " ++ toString recipe_id ++
          " was successfully deleted."⟩,
     { db with recipes := db.recipes.filter (fun r => r.id != recipe_id),
               ingredients :=
                 db.ingredients.filter (fun i => i.recipe_id != recipe_id) })

/-- The relationship attribute Recipe.ingredients (src/app/models.py
line 30).  Its annotation is Mapped of a single Ingredient, not of a List,
so SQLAlchemy configures the relationship as scalar (uselist False):
loading the attribute evaluates the related rows and yields at most one
Ingredient. -/
def Recipe.ingredientsAttr (db : Store) (r : Recipe) : Option Ingredient :=
  (db.ingredients.filter (fun i => i.recipe_id == r.id)).head?

/-- One in-scope request, for reasoning about sequences of calls. -/
inductive Op where
  | listRecipes : Op
  | getRecipe : Nat → Op
  | createRecipe : RecipeCreate → Op
  | createIngredient : IngredientCreate → Op
  | deleteRecipe : Nat → Op
  deriving DecidableEq

/-- The store after one request (whatever its outcome). -/
def applyOp (db : Store) : Op → Store
  | .listRecipes => (recipes db).2
  | .getRecipe rid => (recipe rid db).2
  | .createRecipe req => (create_recipe req db).2
  | .createIngredient req => (create_ingredient req db).2
  | .deleteRecipe rid => (delete_recipe rid db).2

/-- The store after a sequence of requests. -/
def runOps (db : Store) (ops : List Op) : Store :=
  ops.foldl applyOp db

/-- Referential integrity: every ingredient's recipe_id references an
existing recipe. -/
def RefIntegrity (db : Store) : Prop :=
  ∀ i ∈ db.ingredients, ∃ r ∈ db.recipes, r.id = i.recipe_id

/-! ## Helper lemmas -/

theorem memOfHeadSome {α : Type} {l : List α} {a : α} (h : l.head? = some a) :
    a ∈ l := by
  cases l with
  | nil => simp at h
  | cons x xs =>
    simp only [List.head?_cons, Option.some.injEq] at h
    exact h ▸ List.mem_cons_self x xs

theorem headFilterIdEq (l : List Recipe) (r : Recipe) (hmem : r ∈ l)
    (hnodup : (l.map Recipe.id).Nodup) :
    (l.filter (fun x => x.id == r.id)).head? = some r := by
  induction l with
  | nil => cases hmem
  | cons a t ih =>
    rw [List.map_cons, List.nodup_cons] at hnodup
    by_cases h : a.id = r.id
    · have har : a = r := by
        rcases List.mem_cons.mp hmem with h1 | h1
        · exact h1.symm
        · exfalso
          apply hnodup.1
          rw [h]
          exact List.mem_map_of_mem Recipe.id h1
      rw [List.filter_cons_of_pos (by simp [h]), List.head?_cons, har]
    · have hmt : r ∈ t := by
        rcases List.mem_cons.mp hmem with h1 | h1
        · exact absurd (by rw [h1]) h
        · exact h1
      rw [List.filter_cons_of_neg (by simp [h])]
      exact ih hmt hnodup.2

theorem firstRecipeWithId_found (db : Store) (r : Recipe) (hmem : r ∈ db.recipes)
    (hnodup : (db.recipes.map Recipe.id).Nodup) :
    firstRecipeWithId db r.id = some r :=
  headFilterIdEq db.recipes r hmem hnodup

theorem firstRecipeWithId_none (db : Store) (rid : Nat)
    (habs : ∀ r ∈ db.recipes, r.id ≠ rid) :
    firstRecipeWithId db rid = none := by
  unfold firstRecipeWithId
  rw [List.head?_eq_none_iff, List.filter_eq_nil_iff]
  intro a ha
  simp [habs a ha]

theorem firstRecipeWithId_some (db : Store) (rid : Nat) (r : Recipe)
    (h : firstRecipeWithId db rid = some r) : r ∈ db.recipes ∧ r.id = rid := by
  unfold firstRecipeWithId at h
  have hm := List.mem_filter.mp (memOfHeadSome h)
  exact ⟨hm.1, by simpa using hm.2⟩

/-! ## Claim theorems -/

/-- C3: list_recipes returns a sequence containing exactly the recipes in the
store, and whenever r1 appears before r2 in it, r1.views is at least r2.views,
and when the views are equal, r1.cooking_time is at most r2.cooking_time. -/
theorem recipes_sorted_perm (db : Store) :
    ((recipes db).1).Perm db.recipes ∧
    ((recipes db).1).Pairwise (fun r1 r2 =>
      r2.views ≤ r1.views ∧
        (r1.views = r2.views → r1.cooking_time ≤ r2.cooking_time)) := by
  have htrans : ∀ a b c : Recipe,
      recipeOrder a b → recipeOrder b c → recipeOrder a c := by
    intro a b c hab hbc
    simp only [recipeOrder, Bool.or_eq_true, Bool.and_eq_true, decide_eq_true_eq,
      beq_iff_eq] at hab hbc ⊢
    omega
  have htotal : ∀ a b : Recipe, recipeOrder a b || recipeOrder b a := by
    intro a b
    simp only [recipeOrder, Bool.or_eq_true, Bool.and_eq_true, decide_eq_true_eq,
      beq_iff_eq]
    omega
  have hs := List.sorted_mergeSort htrans htotal db.recipes
  constructor
  · exact List.mergeSort_perm db.recipes recipeOrder
  · refine hs.imp ?_
    intro a b hab
    simp only [recipeOrder, Bool.or_eq_true, Bool.and_eq_true, decide_eq_true_eq,
      beq_iff_eq] at hab
    omega

/-- C5: when no recipe has the requested recipe_id, create_ingredient raises
404 Recipe not found and leaves the store (in particular the ingredients
table) unchanged. -/
theorem create_ingredient_notFound (db : Store) (req : IngredientCreate)
    (habs : ∀ r ∈ db.recipes, r.id ≠ req.recipe_id) :
    (create_ingredient req db).1 = .error ⟨404, "Recipe not found"⟩ ∧
    (create_ingredient req db).2 = db := by
  have h := firstRecipeWithId_none db req.recipe_id habs
  constructor <;> simp [create_ingredient, h]

/-- C5 witness: a store holding one recipe with id 1; requesting recipe_id 2
yields the 404 error and the unchanged store. -/
theorem create_ingredient_notFound_witness :
    (create_ingredient ⟨"Onion", "onion", 2⟩
        ⟨[⟨1, "Soup", 0, 20, "Hot soup"⟩], [], 2, 1⟩).1 =
      .error ⟨404, "Recipe not found"⟩ ∧
    (create_ingredient ⟨"Onion", "onion", 2⟩
        ⟨[⟨1, "Soup", 0, 20, "Hot soup"⟩], [], 2, 1⟩).2 =
      ⟨[⟨1, "Soup", 0, 20, "Hot soup"⟩], [], 2, 1⟩ :=
  create_ingredient_notFound _ _ (by decide)

/-- C6: when no recipe has the requested id, delete_recipe raises 404 Recipe
not found and leaves the whole store unchanged. -/
theorem delete_recipe_notFound (db : Store) (rid : Nat)
    (habs : ∀ r ∈ db.recipes, r.id ≠ rid) :
    (delete_recipe rid db).1 = .error ⟨404, "Recipe not found"⟩ ∧
    (delete_recipe rid db).2 = db := by
  have h := firstRecipeWithId_none db rid habs
  constructor <;> simp [delete_recipe, h]

/-- C6 witness: deleting id 2 from a store holding only recipe id 1 yields
the 404 error and the unchanged store. -/
theorem delete_recipe_notFound_witness :
    (delete_recipe 2
        ⟨[⟨1, "Soup", 0, 20, "Hot soup"⟩],
         [⟨1, "Onion", 20, "Hot soup", "onion", 1⟩], 2, 2⟩).1 =
      .error ⟨404, "Recipe not found"⟩ ∧
    (delete_recipe 2
        ⟨[⟨1, "Soup", 0, 20, "Hot soup"⟩],
         [⟨1, "Onion", 20, "Hot soup", "onion", 1⟩], 2, 2⟩).2 =
      ⟨[⟨1, "Soup", 0, 20, "Hot soup"⟩],
       [⟨1, "Onion", 20, "Hot soup", "onion", 1⟩], 2, 2⟩ :=
  delete_recipe_notFound _ _ (by decide)

/-- C9: no in-scope operation changes the views of a recipe that exists both
before and after it, and a created recipe's views is 0 whatever the request
body (the RecipeCreate schema has no views field at all). -/
theorem views_not_client_controlled (db : Store) (rid : Nat)
    (req : RecipeCreate) (ireq : IngredientCreate) :
    (recipes db).2.recipes = db.recipes ∧
    (recipe rid db).2.recipes = db.recipes ∧
    (create_recipe req db).1.views = 0 ∧
    (∀ r ∈ (create_recipe req db).2.recipes, r ∈ db.recipes ∨ r.views = 0) ∧
    (create_ingredient ireq db).2.recipes = db.recipes ∧
    (∀ r ∈ (delete_recipe rid db).2.recipes, r ∈ db.recipes) := by
  refine ⟨rfl, ?_, rfl, ?_, ?_, ?_⟩
  · rcases hf : firstRecipeWithId db rid with _ | r <;> simp [recipe, hf]
  · intro r hr
    simp only [create_recipe] at hr
    rcases List.mem_append.mp hr with h1 | h1
    · exact Or.inl h1
    · right
      simp only [List.mem_singleton] at h1
      subst h1
      rfl
  · rcases hf : firstRecipeWithId db ireq.recipe_id with _ | r <;>
      simp [create_ingredient, hf]
  · intro r hr
    rcases hf : firstRecipeWithId db rid with _ | r0 <;>
      simp only [delete_recipe, hf] at hr
    · exact hr
    · exact (List.mem_filter.mp hr).1

/-- C1: deleting a recipe that is present in the store succeeds and, through
the foreign-key ON DELETE CASCADE, removes the recipe row and every
ingredient row whose recipe_id equals its id, even though the handler issues
a raw delete statement; afterwards get_recipe on that id raises 404 Recipe
not found. -/
theorem delete_recipe_cascades (db : Store) (r : Recipe) (hmem : r ∈ db.recipes) :
    ∃ msg db2, delete_recipe r.id db = (.ok msg, db2) ∧
      (∀ r2 ∈ db2.recipes, r2.id ≠ r.id) ∧
      (∀ i ∈ db2.ingredients, i.recipe_id ≠ r.id) ∧
      (recipe r.id db2).1 = .error ⟨404, "Recipe not found"⟩ := by
  rcases hfr : firstRecipeWithId db r.id with _ | r0
  · exfalso
    unfold firstRecipeWithId at hfr
    rw [List.head?_eq_none_iff, List.filter_eq_nil_iff] at hfr
    exact hfr r hmem (by simp)
  refine ⟨⟨"Recipe with id " ++ toString r.id ++ " was successfully deleted."⟩,
    { db with recipes := db.recipes.filter (fun x => x.id != r.id),
              ingredients := db.ingredients.filter (fun i => i.recipe_id != r.id) },
    by simp [delete_recipe, hfr], ?_, ?_, ?_⟩
  · intro r2 h2
    have := (List.mem_filter.mp h2).2
    simpa using this
  · intro i hi
    have := (List.mem_filter.mp hi).2
    simpa using this
  · have hnone : (List.filter (fun x => x.id == r.id)
        (db.recipes.filter (fun x => x.id != r.id))).head? = none := by
      rw [List.head?_eq_none_iff, List.filter_eq_nil_iff]
      intro a ha
      have := (List.mem_filter.mp ha).2
      simp only [bne_iff_ne, ne_eq] at this
      simp [this]
    simp only [recipe, firstRecipeWithId]
    rw [hnone]

/-- C1 witness: deleting recipe 1 from a store with one recipe and two
attached ingredients removes all three rows and makes get_recipe raise 404. -/
theorem delete_recipe_cascades_witness :
    ∃ msg db2,
      delete_recipe (Recipe.id ⟨1, "Soup", 0, 20, "Hot soup"⟩)
          ⟨[⟨1, "Soup", 0, 20, "Hot soup"⟩],
           [⟨1, "Onion", 20, "Hot soup", "onion", 1⟩,
            ⟨2, "Salt", 20, "Hot soup", "salt", 1⟩], 2, 3⟩ = (.ok msg, db2) ∧
      (∀ r2 ∈ db2.recipes, r2.id ≠ Recipe.id ⟨1, "Soup", 0, 20, "Hot soup"⟩) ∧
      (∀ i ∈ db2.ingredients,
        i.recipe_id ≠ Recipe.id ⟨1, "Soup", 0, 20, "Hot soup"⟩) ∧
      (recipe (Recipe.id ⟨1, "Soup", 0, 20, "Hot soup"⟩) db2).1 =
        .error ⟨404, "Recipe not found"⟩ :=
  delete_recipe_cascades _ _ (by simp)

/-- C2: when the store contains a recipe whose id equals the request's
recipe_id (primary keys being unique), create_ingredient inserts exactly one
ingredient whose cooking_time and description are copied from that recipe,
whose name and list_of_ingredients come from the request, and whose
recipe_id is the requested one; the handler returns that row. -/
theorem create_ingredient_copies_parent (db : Store) (req : IngredientCreate)
    (r : Recipe) (hmem : r ∈ db.recipes) (hid : r.id = req.recipe_id)
    (hnodup : (db.recipes.map Recipe.id).Nodup) :
    create_ingredient req db =
      (.ok { id := db.nextIngredientId, name := req.name,
             cooking_time := r.cooking_time, description := r.description,
             list_of_ingredients := req.list_of_ingredients,
             recipe_id := req.recipe_id },
       { db with
           ingredients := db.ingredients ++
             [{ id := db.nextIngredientId, name := req.name,
                cooking_time := r.cooking_time, description := r.description,
                list_of_ingredients := req.list_of_ingredients,
                recipe_id := req.recipe_id }],
           nextIngredientId := db.nextIngredientId + 1 }) := by
  have hfr : firstRecipeWithId db req.recipe_id = some r := by
    rw [← hid]
    exact firstRecipeWithId_found db r hmem hnodup
  simp [create_ingredient, hfr]

/-- C2 witness: attaching an ingredient to recipe 1 (cooking_time 20,
description Hot soup) copies those two fields into the new row. -/
theorem create_ingredient_copies_parent_witness :
    create_ingredient ⟨"Onion", "onion, salt", 1⟩
        ⟨[⟨1, "Soup", 0, 20, "Hot soup"⟩], [], 2, 1⟩ =
      (.ok ⟨1, "Onion", 20, "Hot soup", "onion, salt", 1⟩,
       ⟨[⟨1, "Soup", 0, 20, "Hot soup"⟩],
        [⟨1, "Onion", 20, "Hot soup", "onion, salt", 1⟩], 2, 2⟩) :=
  create_ingredient_copies_parent _ _ ⟨1, "Soup", 0, 20, "Hot soup"⟩
    (by simp) rfl (by simp)

/-- C4: create_recipe returns the fully populated created row, whose views
is 0, whose id is the store-generated key, and whose remaining fields come
from the request; fetching by the returned id afterwards yields that same
row (the primary-key counter makes the new id fresh). -/
theorem create_recipe_views_zero (db : Store) (req : RecipeCreate)
    (hfresh : ∀ r ∈ db.recipes, r.id < db.nextRecipeId) :
    (create_recipe req db).1 =
      { id := db.nextRecipeId, name := req.name, views := 0,
        cooking_time := req.cooking_time, description := req.description } ∧
    (recipe (create_recipe req db).1.id (create_recipe req db).2).1 =
      .ok (create_recipe req db).1 := by
  refine ⟨rfl, ?_⟩
  have hfr : firstRecipeWithId (create_recipe req db).2
      (create_recipe req db).1.id = some (create_recipe req db).1 := by
    simp only [create_recipe, firstRecipeWithId, List.filter_append]
    have h1 : db.recipes.filter (fun x => x.id == db.nextRecipeId) = [] := by
      rw [List.filter_eq_nil_iff]
      intro a ha
      have := hfresh a ha
      simp only [beq_iff_eq]
      omega
    rw [h1]
    simp
  simp [recipe, hfr]

/-- C4 witness: creating Soup in the empty store yields the row with id 1
and views 0, and fetching id 1 afterwards returns exactly that row. -/
theorem create_recipe_views_zero_witness :
    (create_recipe ⟨"Soup", 20, "Hot soup"⟩ ⟨[], [], 1, 1⟩).1 =
      { id := 1, name := "Soup", views := 0,
        cooking_time := 20, description := "Hot soup" } ∧
    (recipe (create_recipe ⟨"Soup", 20, "Hot soup"⟩ ⟨[], [], 1, 1⟩).1.id
        (create_recipe ⟨"Soup", 20, "Hot soup"⟩ ⟨[], [], 1, 1⟩).2).1 =
      .ok (create_recipe ⟨"Soup", 20, "Hot soup"⟩ ⟨[], [], 1, 1⟩).1 :=
  create_recipe_views_zero _ _ (by simp)

/-- C7: get_recipe never changes the store; with unique primary keys it
returns the recipe whose id matches when one exists, and it raises 404
Recipe not found exactly when no stored recipe has the requested id. -/
theorem get_recipe_correct (db : Store) (rid : Nat)
    (hnodup : (db.recipes.map Recipe.id).Nodup) :
    (recipe rid db).2 = db ∧
    (∀ r ∈ db.recipes, r.id = rid → (recipe rid db).1 = .ok r) ∧
    ((recipe rid db).1 = .error ⟨404, "Recipe not found"⟩ ↔
      ∀ r ∈ db.recipes, r.id ≠ rid) := by
  have hok : ∀ r ∈ db.recipes, r.id = rid → (recipe rid db).1 = .ok r := by
    intro r hr hid
    have hfr : firstRecipeWithId db rid = some r := by
      rw [← hid]
      exact firstRecipeWithId_found db r hr hnodup
    simp [recipe, hfr]
  refine ⟨?_, hok, ?_, ?_⟩
  · rcases hf : firstRecipeWithId db rid with _ | r <;> simp [recipe, hf]
  · intro herr r hr hid
    rw [hok r hr hid] at herr
    cases herr
  · intro habs
    have h := firstRecipeWithId_none db rid habs
    simp [recipe, h]

/-- C7 witness: in a two-recipe store with distinct ids, fetching id 1
returns that recipe, fetching leaves the store unchanged, and the 404 error
occurs exactly when the id matches no recipe. -/
theorem get_recipe_correct_witness :
    (recipe 1 ⟨[⟨1, "Soup", 0, 20, "Hot soup"⟩,
        ⟨2, "Tea", 3, 5, "Hot tea"⟩], [], 3, 1⟩).2 =
      ⟨[⟨1, "Soup", 0, 20, "Hot soup"⟩, ⟨2, "Tea", 3, 5, "Hot tea"⟩], [], 3, 1⟩ ∧
    (∀ r ∈ (⟨[⟨1, "Soup", 0, 20, "Hot soup"⟩,
        ⟨2, "Tea", 3, 5, "Hot tea"⟩], [], 3, 1⟩ : Store).recipes, r.id = 1 →
      (recipe 1 ⟨[⟨1, "Soup", 0, 20, "Hot soup"⟩,
          ⟨2, "Tea", 3, 5, "Hot tea"⟩], [], 3, 1⟩).1 = .ok r) ∧
    ((recipe 1 ⟨[⟨1, "Soup", 0, 20, "Hot soup"⟩,
        ⟨2, "Tea", 3, 5, "Hot tea"⟩], [], 3, 1⟩).1 =
        .error ⟨404, "Recipe not found"⟩ ↔
      ∀ r ∈ (⟨[⟨1, "Soup", 0, 20, "Hot soup"⟩,
          ⟨2, "Tea", 3, 5, "Hot tea"⟩], [], 3, 1⟩ : Store).recipes, r.id ≠ 1) :=
  get_recipe_correct _ _ (by simp)

theorem applyOp_keeps_refIntegrity (db : Store) (op : Op)
    (h : RefIntegrity db) : RefIntegrity (applyOp db op) := by
  cases op with
  | listRecipes => exact h
  | getRecipe rid =>
    rcases hf : firstRecipeWithId db rid with _ | r <;>
      simp only [applyOp, recipe, hf] <;> exact h
  | createRecipe req =>
    intro i hi
    simp only [applyOp, create_recipe] at hi ⊢
    rcases h i hi with ⟨r, hr, hid⟩
    exact ⟨r, List.mem_append_left _ hr, hid⟩
  | createIngredient req =>
    rcases hf : firstRecipeWithId db req.recipe_id with _ | parent
    · simp only [applyOp, create_ingredient, hf]
      exact h
    · have hp := firstRecipeWithId_some db req.recipe_id parent hf
      intro i hi
      simp only [applyOp, create_ingredient, hf] at hi ⊢
      rcases List.mem_append.mp hi with h1 | h1
      · exact h i h1
      · simp only [List.mem_singleton] at h1
        subst h1
        exact ⟨parent, hp.1, hp.2⟩
  | deleteRecipe rid =>
    rcases hf : firstRecipeWithId db rid with _ | r0
    · simp only [applyOp, delete_recipe, hf]
      exact h
    · intro i hi
      simp only [applyOp, delete_recipe, hf] at hi ⊢
      have hmemi := (List.mem_filter.mp hi).1
      have hne : i.recipe_id ≠ rid := by
        have := (List.mem_filter.mp hi).2
        simpa using this
      rcases h i hmemi with ⟨r, hr, hid⟩
      refine ⟨r, List.mem_filter.mpr ⟨hr, ?_⟩, hid⟩
      simp only [bne_iff_ne, ne_eq, hid]
      exact hne

/-- C10: starting from a store whose every ingredient references an existing
recipe, any sequence of the five in-scope operations preserves that
referential integrity. -/
theorem ref_integrity_preserved (db : Store) (ops : List Op)
    (h : RefIntegrity db) : RefIntegrity (runOps db ops) := by
  induction ops generalizing db with
  | nil => exact h
  | cons op t ih => exact ih (applyOp db op) (applyOp_keeps_refIntegrity db op h)

/-- C10 witness: a concrete five-request run starting from a store with one
recipe and one attached ingredient keeps referential integrity. -/
theorem ref_integrity_preserved_witness :
    RefIntegrity (runOps
      ⟨[⟨1, "Soup", 0, 20, "Hot soup"⟩],
       [⟨1, "Onion", 20, "Hot soup", "onion", 1⟩], 2, 2⟩
      [.createRecipe ⟨"Tea", 5, "Hot tea"⟩,
       .createIngredient ⟨"Leaf", "leaves", 1⟩,
       .deleteRecipe 1, .getRecipe 2, .listRecipes]) :=
  ref_integrity_preserved _ _ (by
    intro i hi
    simp only [List.mem_singleton] at hi
    subst hi
    exact ⟨⟨1, "Soup", 0, 20, "Hot soup"⟩, by simp, rfl⟩)

/-- C8: evaluation of the code at the failing input.  In a store holding one
recipe (id 1) and two ingredients that both reference it, the relationship
attribute Recipe.ingredients — whose annotation is Mapped of a single
Ingredient, hence a scalar (uselist False) relationship — yields only the
first matching ingredient: the second ingredient referencing the recipe is
not reachable through the attribute, contradicting both the claim and the
model's own docstring, which calls the attribute a List of Ingredient in a
one-to-many relation. -/
theorem ingredientsAttr_scalar :
    Recipe.ingredientsAttr
        ⟨[⟨1, "Soup", 0, 20, "Hot soup"⟩],
         [⟨1, "Onion", 20, "Hot soup", "onion", 1⟩,
          ⟨2, "Salt", 20, "Hot soup", "salt", 1⟩], 2, 3⟩
        ⟨1, "Soup", 0, 20, "Hot soup"⟩ =
      some ⟨1, "Onion", 20, "Hot soup", "onion", 1⟩ ∧
    (⟨2, "Salt", 20, "Hot soup", "salt", 1⟩ : Ingredient) ∈
      (⟨[⟨1, "Soup", 0, 20, "Hot soup"⟩],
        [⟨1, "Onion", 20, "Hot soup", "onion", 1⟩,
         ⟨2, "Salt", 20, "Hot soup", "salt", 1⟩], 2, 3⟩ : Store).ingredients ∧
    Ingredient.recipe_id ⟨2, "Salt", 20, "Hot soup", "salt", 1⟩ =
      Recipe.id ⟨1, "Soup", 0, 20, "Hot soup"⟩ ∧
    Recipe.ingredientsAttr
        ⟨[⟨1, "Soup", 0, 20, "Hot soup"⟩],
         [⟨1, "Onion", 20, "Hot soup", "onion", 1⟩,
          ⟨2, "Salt", 20, "Hot soup", "salt", 1⟩], 2, 3⟩
        ⟨1, "Soup", 0, 20, "Hot soup"⟩ ≠
      some ⟨2, "Salt", 20, "Hot soup", "salt", 1⟩ := by
  refine ⟨rfl, by simp, rfl, ?_⟩
  decide

end CookBook
